import Mathlib

/-!
Verification of the oj-judger distributed evaluation system against its design
specification. The definitions below are shallow embeddings of the Python
sources: `judger/manager/distribute.py` (dispatcher loop),
`judger/manager/__init__.py` (Manager HTTP handlers),
`judger/manager/models.py` (database rows),
`judger/utils/template_manager.py` (template cache),
`judger/executor/function_extractor.py` (Clang-AST function extractor) and
`judger/executor/validate.py` (evaluation pipeline).

External effects (HTTP requests, the SQLite connection, libclang, the
filesystem) are modelled by explicit parameters and by effect traces, so that
the control flow and state transitions of the Python code are captured
faithfully while the out-of-repo collaborators stay abstract.
-/

namespace OJ

/-- Minimal model of a Python JSON value, as produced by `json.loads`. -/
inductive Json where
  | null
  | bool (b : Bool)
  | num (n : Int)
  | str (s : String)
  | arr (elems : List Json)
  | obj (fields : List (String × Json))

/-- Python truthiness of a JSON value (`if value:`). -/
def Json.truthy : Json → Bool
  | .null => false
  | .bool b => b
  | .num n => n != 0
  | .str s => s != ""
  | .arr elems => !elems.isEmpty
  | .obj fields => !fields.isEmpty

/-- Row of the `tasks` table (`judger/manager/models.py`, class `Task`). -/
structure TaskRow where
  id : Nat
  judgmentId : Nat
deriving DecidableEq

/-- Row of the `executors` table (`judger/manager/models.py`, class `Executor`).
The `data` column is the raw JSON text of the last heartbeat payload. -/
structure ExecutorRow where
  id : Nat
  ip : String
  data : String
  lastUpdated : Nat
  idle : Bool
deriving DecidableEq

/-- The Manager database: the two tables used as an IPC medium. Rows are kept
in ascending `id` order, which is the order a full SQLite table scan returns
(`id` is the integer primary key, hence the rowid). -/
structure DBState where
  tasks : List TaskRow
  executors : List ExecutorRow
deriving DecidableEq

namespace Distribute

/-- `SELECT id, judgment_id FROM tasks ORDER BY id ASC LIMIT 1`: the task with
the minimal id (ties broken towards the earlier row; ids are unique). -/
def oldestTask : List TaskRow → Option TaskRow
  | [] => none
  | t :: ts =>
    match oldestTask ts with
    | none => some t
    | some u => some (if t.id ≤ u.id then t else u)

/-- Result of `data.get` of the is_alive key with default False followed by Python truthiness,
applied to a decoded JSON value. `json.loads` can return a non-object value,
on which `.get` raises `AttributeError`; that case is `none`. -/
def isAliveTruthy : Json → Option Bool
  | .obj fields => some (((List.lookup "is_alive" fields).getD (Json.bool false)).truthy)
  | _ => none

/-- Outcome of the selection loop of `distribute_tasks` (lines 40-52):
either a chosen executor, no alive executor, or an uncaught exception
(`AttributeError` on a JSON value that is not an object). -/
inductive SelectResult where
  | crash
  | noneAlive
  | chosen (e : ExecutorRow)
deriving DecidableEq

/-- The executor-selection loop of `distribute_tasks`: iterate over the idle
executors, skip a row whose `data` does not parse (`json.JSONDecodeError`),
pick the first row whose decoded `data` has a truthy `is_alive`.
`loads` models `json.loads` (returning `none` on a decode error). -/
def selectExecutor (loads : String → Option Json) : List ExecutorRow → SelectResult
  | [] => .noneAlive
  | e :: rest =>
    match loads e.data with
    | none => selectExecutor loads rest
    | some j =>
      match isAliveTruthy j with
      | none => .crash
      | some true => .chosen e
      | some false => selectExecutor loads rest

/-- Outcome of the dispatch POST to the chosen executor (lines 59-88):
a received HTTP status, `requests.exceptions.Timeout`, or another
`requests.exceptions.RequestException`. -/
inductive PostOutcome where
  | status (code : Nat)
  | timeout
  | connError
deriving DecidableEq

/-- `handle_failed_executor`: `DELETE FROM executors WHERE id=?` and commit. -/
def handleFailedExecutor (executors : List ExecutorRow) (execId : Nat) : List ExecutorRow :=
  executors.filter fun e => !(e.id == execId)

/-- The dispatch attempt (the `try` block at lines 59-88 of `distribute.py`),
given the chosen executor id and the POST outcome. On status 202 the chosen
executor is marked busy and the task is deleted; on any other outcome the
executor row is deleted and the tasks are untouched. -/
def dispatchStep (db : DBState) (taskId : Nat) (execId : Nat) (outcome : PostOutcome) : DBState :=
  match outcome with
  | .status code =>
    if code = 202 then
      { tasks := db.tasks.filter fun t => !(t.id == taskId),
        executors := db.executors.map fun e =>
          if e.id = execId then { e with idle := false } else e }
    else
      { db with executors := handleFailedExecutor db.executors execId }
  | .timeout => { db with executors := handleFailedExecutor db.executors execId }
  | .connError => { db with executors := handleFailedExecutor db.executors execId }

/-- One tick of the dispatcher loop body (lines 27-88 of `distribute.py`).
`post` gives the outcome of the dispatch POST for a given executor ip.
A tick with no pending task, no alive idle executor, or a crashed selection
loop leaves the database unchanged. -/
def tick (loads : String → Option Json) (post : String → PostOutcome) (db : DBState) : DBState :=
  match oldestTask db.tasks with
  | none => db
  | some t =>
    match selectExecutor loads (db.executors.filter fun e => e.idle) with
    | .crash => db
    | .noneAlive => db
    | .chosen e => dispatchStep db t.id e.id (post e.ip)

/-- Well-formedness of a decoded heartbeat value, as the spec data model
describes it: a decode failure, or a JSON object whose `is_alive` field
(when present) is a boolean. -/
def wfVal : Option Json → Bool
  | none => true
  | some (Json.obj fields) =>
    match List.lookup "is_alive" fields with
    | none => true
    | some (Json.bool _) => true
    | some _ => false
  | some _ => false

/-- Well-formedness of a stored heartbeat payload: see `wfVal`. -/
def wfData (loads : String → Option Json) (e : ExecutorRow) : Bool :=
  wfVal (loads e.data)

/-- The selection criterion on the decoded value, as the spec words it:
the data parses as JSON and its `is_alive` field is `true`. -/
def claimAliveVal : Option Json → Bool
  | some (Json.obj fields) =>
    match List.lookup "is_alive" fields with
    | some (Json.bool true) => true
    | _ => false
  | _ => false

/-- The selection criterion as the spec words it, on a row: the row data
parses as JSON and its `is_alive` field is `true`. -/
def claimAlive (loads : String → Option Json) (e : ExecutorRow) : Bool :=
  claimAliveVal (loads e.data)

theorem selectExecutor_eq_find (loads : String → Option Json) (l : List ExecutorRow)
    (hWF : ∀ e ∈ l, wfData loads e = true) :
    selectExecutor loads l =
      match l.find? (claimAlive loads) with
      | some e => SelectResult.chosen e
      | none => SelectResult.noneAlive := by
  induction l with
  | nil => rfl
  | cons e rest ih =>
    have hwe : wfVal (loads e.data) = true := hWF e (List.mem_cons_self e rest)
    have ihr := ih (fun x hx => hWF x (List.mem_cons_of_mem e hx))
    cases hLoads : loads e.data with
    | none =>
      have hneg : ¬ (claimAlive loads e = true) := by
        simp [claimAlive, claimAliveVal, hLoads]
      rw [List.find?_cons_of_neg rest hneg]
      simp only [selectExecutor, hLoads]
      exact ihr
    | some j =>
      rw [hLoads] at hwe
      cases j with
      | obj fields =>
        cases hLk : List.lookup "is_alive" fields with
        | none =>
          have hneg : ¬ (claimAlive loads e = true) := by
            simp [claimAlive, claimAliveVal, hLoads, hLk]
          rw [List.find?_cons_of_neg rest hneg]
          simp only [selectExecutor, hLoads, isAliveTruthy, hLk, Option.getD,
            Json.truthy]
          exact ihr
        | some v =>
          simp only [wfVal, hLk] at hwe
          cases v with
          | bool b =>
            cases b with
            | true =>
              have hpos : claimAlive loads e = true := by
                simp [claimAlive, claimAliveVal, hLoads, hLk]
              rw [List.find?_cons_of_pos rest hpos]
              simp [selectExecutor, hLoads, isAliveTruthy, hLk, Option.getD,
                Json.truthy]
            | false =>
              have hneg : ¬ (claimAlive loads e = true) := by
                simp [claimAlive, claimAliveVal, hLoads, hLk]
              rw [List.find?_cons_of_neg rest hneg]
              simp only [selectExecutor, hLoads, isAliveTruthy, hLk, Option.getD,
                Json.truthy]
              exact ihr
          | null => simp at hwe
          | num n => simp at hwe
          | str s => simp at hwe
          | arr xs => simp at hwe
          | obj f2 => simp at hwe
      | null => simp [wfVal] at hwe
      | bool b => simp [wfVal] at hwe
      | num n => simp [wfVal] at hwe
      | str s => simp [wfVal] at hwe
      | arr xs => simp [wfVal] at hwe

theorem find?_min_id (p : ExecutorRow → Bool) :
    ∀ (l : List ExecutorRow), (l.Pairwise fun a b => a.id < b.id) →
      ∀ e, l.find? p = some e → ∀ x ∈ l, p x = true → e.id ≤ x.id := by
  intro l
  induction l with
  | nil => intro _ e he; cases he
  | cons a l ih =>
    intro hS e he x hx hpx
    rw [List.pairwise_cons] at hS
    by_cases hpa : p a = true
    · rw [List.find?_cons_of_pos l hpa] at he
      cases he
      rcases List.mem_cons.mp hx with rfl | hxl
      · exact Nat.le_refl _
      · exact Nat.le_of_lt (hS.1 x hxl)
    · rw [List.find?_cons_of_neg l hpa] at he
      rcases List.mem_cons.mp hx with rfl | hxl
      · exact absurd hpx hpa
      · exact ih hS.2 e he x hxl hpx

theorem countP_id_eq_one (l : List ExecutorRow) (ex : ExecutorRow)
    (hN : (l.map fun e => e.id).Nodup) (hM : ex ∈ l) :
    l.countP (fun e => e.id == ex.id) = 1 := by
  induction l with
  | nil => cases hM
  | cons a l ih =>
    rw [List.map_cons, List.nodup_cons] at hN
    rw [List.countP_cons]
    rcases List.mem_cons.mp hM with rfl | hM2
    · have hzero : l.countP (fun e => e.id == ex.id) = 0 := by
        rw [List.countP_eq_zero]
        intro b hb
        simp only [beq_iff_eq]
        intro hEq
        exact hN.1 (hEq ▸ List.mem_map_of_mem (fun e => e.id) hb)
      simp [hzero]
    · have hne : ¬ (a.id = ex.id) := by
        intro hEq
        exact hN.1 (hEq ▸ List.mem_map_of_mem (fun e => e.id) hM2)
      simp [ih hN.2 hM2, hne]

theorem filter_ne_id_length (l : List ExecutorRow) (ex : ExecutorRow)
    (hN : (l.map fun e => e.id).Nodup) (hM : ex ∈ l) :
    (l.filter fun e => !(e.id == ex.id)).length + 1 = l.length := by
  induction l with
  | nil => cases hM
  | cons a l ih =>
    rw [List.map_cons, List.nodup_cons] at hN
    rcases List.mem_cons.mp hM with rfl | hM2
    · have hall : l.filter (fun e => !(e.id == ex.id)) = l := by
        apply List.filter_eq_self.mpr
        intro b hb
        simp only [Bool.not_eq_true', beq_eq_false_iff_ne, ne_eq]
        intro hEq
        exact hN.1 (hEq ▸ List.mem_map_of_mem (fun e => e.id) hb)
      simp [List.filter_cons, hall]
    · have hih := ih hN.2 hM2
      have hne : ¬ (a.id = ex.id) := by
        intro hEq
        exact hN.1 (hEq ▸ List.mem_map_of_mem (fun e => e.id) hM2)
      simp [List.filter_cons, hne, List.length_cons]
      omega

/-- C2: on a dispatcher tick with a pending task, the selection pass over the
`idle=true` executors picks the first one (in ascending id order) whose data
parses as JSON with `is_alive` true; skipped executors (dead, or unparseable
data) are not deleted on that tick. The hypotheses say that the stored
heartbeat payloads fit the spec data model (`wfData`) and that the table scan
yields rows in ascending id order, as SQLite does for a rowid table. -/
theorem claim_C2 (loads : String → Option Json) (post : String → PostOutcome)
    (db : DBState) (t : TaskRow)
    (hWF : ∀ e ∈ db.executors.filter (fun e => e.idle), wfData loads e = true)
    (hSorted : db.executors.Pairwise fun a b => a.id < b.id)
    (hTask : oldestTask db.tasks = some t) :
    (selectExecutor loads (db.executors.filter fun e => e.idle) =
      match (db.executors.filter fun e => e.idle).find? (claimAlive loads) with
      | some e => SelectResult.chosen e
      | none => SelectResult.noneAlive)
    ∧ (∀ e, selectExecutor loads (db.executors.filter fun e => e.idle) =
          SelectResult.chosen e →
        e ∈ db.executors ∧ e.idle = true ∧ claimAlive loads e = true ∧
        ∀ x ∈ db.executors, x.idle = true → claimAlive loads x = true → e.id ≤ x.id)
    ∧ (∀ x ∈ db.executors,
        (∀ e, selectExecutor loads (db.executors.filter fun e => e.idle) =
          SelectResult.chosen e → x.id ≠ e.id) →
        x ∈ (tick loads post db).executors) := by
  have hEq := selectExecutor_eq_find loads _ hWF
  refine ⟨hEq, ?_, ?_⟩
  · intro e hSel
    rw [hEq] at hSel
    cases hFind : (db.executors.filter fun e => e.idle).find? (claimAlive loads) with
    | none => rw [hFind] at hSel; cases hSel
    | some e2 =>
      rw [hFind] at hSel
      have hFe : (db.executors.filter fun e => e.idle).find? (claimAlive loads)
          = some e := by
        rw [hFind]
        cases hSel
        rfl
      have hMem := List.mem_of_find?_eq_some hFe
      have hMemF := List.mem_filter.mp hMem
      have hP := List.find?_some hFe
      have hSortedF : (db.executors.filter fun e => e.idle).Pairwise
          (fun a b => a.id < b.id) :=
        List.Pairwise.sublist (List.filter_sublist db.executors) hSorted
      refine ⟨hMemF.1, hMemF.2, hP, ?_⟩
      intro x hx hxIdle hxAlive
      exact find?_min_id (claimAlive loads) _ hSortedF e hFe x
        (List.mem_filter.mpr ⟨hx, hxIdle⟩) hxAlive
  · intro x hx hSkip
    cases hSel : selectExecutor loads (db.executors.filter fun e => e.idle) with
    | crash =>
      have hTick : tick loads post db = db := by
        unfold tick
        rw [hTask, hSel]
      rw [hTick]
      exact hx
    | noneAlive =>
      have hTick : tick loads post db = db := by
        unfold tick
        rw [hTask, hSel]
      rw [hTick]
      exact hx
    | chosen e =>
      have hne : x.id ≠ e.id := hSkip e hSel
      have hTick : tick loads post db = dispatchStep db t.id e.id (post e.ip) := by
        unfold tick
        rw [hTask, hSel]
      rw [hTick]
      cases hPost : post e.ip with
      | status code =>
        by_cases h202 : code = 202
        · subst h202
          have hD : dispatchStep db t.id e.id (PostOutcome.status 202) =
              { tasks := db.tasks.filter fun t2 => !(t2.id == t.id),
                executors := db.executors.map fun e2 =>
                  if e2.id = e.id then { e2 with idle := false } else e2 } := by
            simp [dispatchStep]
          rw [hD]
          refine List.mem_map.mpr ⟨x, hx, ?_⟩
          show (if x.id = e.id then { x with idle := false } else x) = x
          rw [if_neg hne]
        · have hD : dispatchStep db t.id e.id (PostOutcome.status code) =
              { db with executors := handleFailedExecutor db.executors e.id } := by
            simp [dispatchStep, h202]
          rw [hD]
          show x ∈ List.filter (fun e2 => !(e2.id == e.id)) db.executors
          refine List.mem_filter.mpr ⟨hx, ?_⟩
          simp only [Bool.not_eq_true', beq_eq_false_iff_ne, ne_eq]
          exact hne
      | timeout =>
        have hD : dispatchStep db t.id e.id PostOutcome.timeout =
            { db with executors := handleFailedExecutor db.executors e.id } := rfl
        rw [hD]
        show x ∈ List.filter (fun e2 => !(e2.id == e.id)) db.executors
        refine List.mem_filter.mpr ⟨hx, ?_⟩
        simp only [Bool.not_eq_true', beq_eq_false_iff_ne, ne_eq]
        exact hne
      | connError =>
        have hD : dispatchStep db t.id e.id PostOutcome.connError =
            { db with executors := handleFailedExecutor db.executors e.id } := rfl
        rw [hD]
        show x ∈ List.filter (fun e2 => !(e2.id == e.id)) db.executors
        refine List.mem_filter.mpr ⟨hx, ?_⟩
        simp only [Bool.not_eq_true', beq_eq_false_iff_ne, ne_eq]
        exact hne

/-- Concrete decoder for the C2 witness scenario. -/
def c2loads : String → Option Json := fun s =>
  if s = "A" then some (Json.obj [("is_alive", Json.bool true)]) else none

/-- Concrete database for the C2 witness scenario. -/
def c2db : DBState :=
  { tasks := [{ id := 1, judgmentId := 42 }],
    executors := [{ id := 1, ip := "10.0.0.2", data := "A", lastUpdated := 0, idle := true }] }

/-- C2 witness: the claim instantiated on a one-task, one-executor database
whose heartbeat data decodes to an alive JSON object. -/
theorem claim_C2_witness :
    ((∀ e ∈ c2db.executors.filter (fun e => e.idle), wfData c2loads e = true)
      ∧ oldestTask c2db.tasks = some { id := 1, judgmentId := 42 })
    ∧ selectExecutor c2loads (c2db.executors.filter fun e => e.idle) =
        match (c2db.executors.filter fun e => e.idle).find? (claimAlive c2loads) with
        | some e => SelectResult.chosen e
        | none => SelectResult.noneAlive := by
  refine ⟨⟨?_, ?_⟩, ?_⟩
  · intro e he
    simp only [c2db, List.filter] at he
    simp only [List.mem_singleton] at he
    subst he
    decide
  · decide
  · exact (claim_C2 c2loads (fun _ => PostOutcome.status 202) c2db
      { id := 1, judgmentId := 42 }
      (by intro e he
          simp only [c2db, List.filter] at he
          simp only [List.mem_singleton] at he
          subst he
          decide)
      (by simp [c2db])
      (by decide)).1

/-- C3: for every dispatch attempt with a chosen executor, a 202 response
marks that executor busy and deletes the task; any other outcome (non-202
status, timeout, connection error) deletes the executor row exactly once and
leaves the task queue unchanged. -/
theorem claim_C3 (db : DBState) (taskId : Nat) (ex : ExecutorRow)
    (outcome : PostOutcome) (hMem : ex ∈ db.executors)
    (hNodup : (db.executors.map fun e => e.id).Nodup) :
    (outcome = PostOutcome.status 202 →
      (∀ e ∈ (dispatchStep db taskId ex.id outcome).executors,
        e.id = ex.id → e.idle = false)
      ∧ (∀ e ∈ db.executors, e.id ≠ ex.id →
          e ∈ (dispatchStep db taskId ex.id outcome).executors)
      ∧ (dispatchStep db taskId ex.id outcome).executors.length = db.executors.length
      ∧ (∀ t ∈ (dispatchStep db taskId ex.id outcome).tasks, t.id ≠ taskId)
      ∧ (∀ t ∈ db.tasks, t.id ≠ taskId → t ∈ (dispatchStep db taskId ex.id outcome).tasks))
    ∧ (outcome ≠ PostOutcome.status 202 →
      (dispatchStep db taskId ex.id outcome).tasks = db.tasks
      ∧ db.executors.countP (fun e => e.id == ex.id) = 1
      ∧ (dispatchStep db taskId ex.id outcome).executors.countP
          (fun e => e.id == ex.id) = 0
      ∧ (dispatchStep db taskId ex.id outcome).executors.length + 1
          = db.executors.length
      ∧ (∀ e ∈ db.executors, e.id ≠ ex.id →
          e ∈ (dispatchStep db taskId ex.id outcome).executors)) := by
  constructor
  · rintro rfl
    simp only [dispatchStep, if_pos rfl]
    refine ⟨?_, ?_, ?_, ?_, ?_⟩
    · intro e he hid
      rcases List.mem_map.mp he with ⟨e0, he0, hEq⟩
      by_cases h0 : e0.id = ex.id
      · rw [if_pos h0] at hEq
        rw [← hEq]
      · rw [if_neg h0] at hEq
        exact absurd (hEq ▸ hid) h0
    · intro e he hne
      exact List.mem_map.mpr ⟨e, he, by rw [if_neg hne]⟩
    · exact List.length_map _ _
    · intro t ht
      have := (List.mem_filter.mp ht).2
      simpa using this
    · intro t ht hne
      exact List.mem_filter.mpr ⟨ht, by simpa using hne⟩
  · intro hne
    have hStep : (dispatchStep db taskId ex.id outcome).tasks = db.tasks ∧
        (dispatchStep db taskId ex.id outcome).executors =
          handleFailedExecutor db.executors ex.id := by
      cases outcome with
      | status code =>
        have hc : ¬ (code = 202) := fun h => hne (by rw [h])
        simp [dispatchStep, hc, handleFailedExecutor]
      | timeout => simp [dispatchStep, handleFailedExecutor]
      | connError => simp [dispatchStep, handleFailedExecutor]
    rw [hStep.1, hStep.2]
    refine ⟨rfl, countP_id_eq_one db.executors ex hNodup hMem, ?_, ?_, ?_⟩
    · rw [List.countP_eq_zero]
      intro e he
      have := (List.mem_filter.mp he).2
      simpa using this
    · exact filter_ne_id_length db.executors ex hNodup hMem
    · intro e he hEq
      exact List.mem_filter.mpr ⟨he, by simpa using hEq⟩

/-- C3 witness: a timeout on a two-executor database deletes the chosen
executor exactly once and keeps the task queue intact. -/
theorem claim_C3_witness :
    (({ tasks := [{ id := 1, judgmentId := 42 }],
        executors :=
          [{ id := 1, ip := "10.0.0.2", data := "A", lastUpdated := 0, idle := true },
           { id := 2, ip := "10.0.0.3", data := "B", lastUpdated := 0, idle := true }]
        } : DBState).executors.map fun e => e.id).Nodup
    ∧ (PostOutcome.timeout ≠ PostOutcome.status 202 →
      (dispatchStep
          { tasks := [{ id := 1, judgmentId := 42 }],
            executors :=
              [{ id := 1, ip := "10.0.0.2", data := "A", lastUpdated := 0, idle := true },
               { id := 2, ip := "10.0.0.3", data := "B", lastUpdated := 0, idle := true }] }
          1 1 PostOutcome.timeout).tasks
        = [{ id := 1, judgmentId := 42 }]
      ∧ ([{ id := 1, ip := "10.0.0.2", data := "A", lastUpdated := 0, idle := true },
          { id := 2, ip := "10.0.0.3", data := "B", lastUpdated := 0, idle := true }]
          : List ExecutorRow).countP (fun e => e.id == 1) = 1
      ∧ (dispatchStep
          { tasks := [{ id := 1, judgmentId := 42 }],
            executors :=
              [{ id := 1, ip := "10.0.0.2", data := "A", lastUpdated := 0, idle := true },
               { id := 2, ip := "10.0.0.3", data := "B", lastUpdated := 0, idle := true }] }
          1 1 PostOutcome.timeout).executors.countP (fun e => e.id == 1) = 0
      ∧ (dispatchStep
          { tasks := [{ id := 1, judgmentId := 42 }],
            executors :=
              [{ id := 1, ip := "10.0.0.2", data := "A", lastUpdated := 0, idle := true },
               { id := 2, ip := "10.0.0.3", data := "B", lastUpdated := 0, idle := true }] }
          1 1 PostOutcome.timeout).executors.length + 1 = 2
      ∧ (∀ e ∈ ([{ id := 1, ip := "10.0.0.2", data := "A", lastUpdated := 0, idle := true },
                 { id := 2, ip := "10.0.0.3", data := "B", lastUpdated := 0, idle := true }]
            : List ExecutorRow), e.id ≠ 1 →
          e ∈ (dispatchStep
            { tasks := [{ id := 1, judgmentId := 42 }],
              executors :=
                [{ id := 1, ip := "10.0.0.2", data := "A", lastUpdated := 0, idle := true },
                 { id := 2, ip := "10.0.0.3", data := "B", lastUpdated := 0, idle := true }] }
            1 1 PostOutcome.timeout).executors)) := by
  refine ⟨by decide, ?_⟩
  have h := claim_C3
    { tasks := [{ id := 1, judgmentId := 42 }],
      executors :=
        [{ id := 1, ip := "10.0.0.2", data := "A", lastUpdated := 0, idle := true },
         { id := 2, ip := "10.0.0.3", data := "B", lastUpdated := 0, idle := true }] }
    1 { id := 1, ip := "10.0.0.2", data := "A", lastUpdated := 0, idle := true }
    PostOutcome.timeout (by decide) (by decide)
  exact h.2

end Distribute

namespace ManagerApp

/-- Parsed body of `POST /api/judge/{id}/result`. Each field models a key of
the JSON dictionary; a missing key raises `KeyError` in the handler
(the result and log keys), while `function_impls` is
read with `.get` and so may be absent without error. -/
structure ResultBody where
  result : Option String
  log : Option String
  functionImpls : Option (List String)
deriving DecidableEq

/-- Outcomes of the external calls made by `receive_judgment_result`:
whether `db.session.commit()` succeeds, the `submission_id` returned by
`GET /api/judgments/{id}` (`none` models a raised API error), whether
`POST /api/judgments/{id}/result` succeeds, and whether the i-th
`POST /api/submissions/{sid}/function_impls` succeeds. -/
structure ForwardEnv where
  commitOk : Bool
  judgmentLookup : Option Nat
  postResultOk : Bool
  postImplOk : Nat → Bool

/-- Observable side effects of `receive_judgment_result`, in program order. -/
inductive REffect where
  | commitIdle (execId : Nat)
  | getJudgment (judgmentId : Nat)
  | postResult (judgmentId : Nat) (result : String) (log : String)
  | postImpl (submissionId : Nat) (code : String)
deriving DecidableEq

/-- Result of running the handler: the executors table afterwards, the HTTP
status returned, and the trace of external effects in order. -/
structure HandlerResult where
  executors : List ExecutorRow
  status : Nat
  trace : List REffect
deriving DecidableEq

/-- The `for function_impl in function_impls` loop: each iteration POSTs the
implementation, then reads the function_impl_id key of the response; an exception
(`ok i = false`) stops the loop (it is swallowed by the surrounding
`except`), but the failing POST attempt itself has already happened. -/
def forwardImplsAux (sid : Nat) (ok : Nat → Bool) : Nat → List String → List REffect
  | _, [] => []
  | i, c :: rest =>
    REffect.postImpl sid c :: (if ok i then forwardImplsAux sid ok (i + 1) rest else [])

/-- Effects of forwarding a list of function implementations, starting at
index 0. -/
def forwardImpls (sid : Nat) (impls : List String) (ok : Nat → Bool) : List REffect :=
  forwardImplsAux sid ok 0 impls

/-- `receive_judgment_result` (`judger/manager/__init__.py` lines 59-115):
look up the executor by remote ip (404 when absent), set its `idle` flag to
true and commit, then read the body and forward the verdict - and every
present function implementation - to the Web backend; forwarding failures are
swallowed and the handler still returns 200. -/
def receiveJudgmentResult (executors : List ExecutorRow) (remoteIp : String)
    (jid : Nat) (body : Option ResultBody) (env : ForwardEnv) : HandlerResult :=
  match executors.find? (fun e => e.ip == remoteIp) with
  | none => ⟨executors, 404, []⟩
  | some ex =>
    let updated := executors.map fun e =>
      if e.ip = remoteIp then { e with idle := true } else e
    if env.commitOk then
      let eff0 := [REffect.commitIdle ex.id]
      match body with
      | none => ⟨updated, 400, eff0⟩
      | some b =>
        match b.result, b.log with
        | some res, some lg =>
          let eff1 := eff0 ++ [REffect.getJudgment jid]
          match env.judgmentLookup with
          | none => ⟨updated, 500, eff1⟩
          | some sid =>
            let eff2 := eff1 ++ [REffect.postResult jid res lg]
            if env.postResultOk then
              match b.functionImpls with
              | none => ⟨updated, 200, eff2⟩
              | some impls => ⟨updated, 200, eff2 ++ forwardImpls sid impls env.postImplOk⟩
            else ⟨updated, 200, eff2⟩
        | _, _ => ⟨updated, 500, eff0⟩
    else ⟨executors, 500, []⟩

theorem receive_found_commit (executors : List ExecutorRow) (ip : String)
    (jid : Nat) (body : Option ResultBody) (env : ForwardEnv) (ex : ExecutorRow)
    (hFind : executors.find? (fun e => e.ip == ip) = some ex)
    (hCommit : env.commitOk = true) :
    (receiveJudgmentResult executors ip jid body env).executors =
      (executors.map fun e => if e.ip = ip then { e with idle := true } else e)
    ∧ ∃ tr, (receiveJudgmentResult executors ip jid body env).trace
        = REffect.commitIdle ex.id :: tr := by
  unfold receiveJudgmentResult
  rw [hFind, hCommit]
  cases body with
  | none => exact ⟨rfl, _, rfl⟩
  | some b =>
    obtain ⟨r, l, fi⟩ := b
    cases r with
    | none => exact ⟨rfl, _, rfl⟩
    | some res =>
      cases l with
      | none => exact ⟨rfl, _, rfl⟩
      | some lg =>
        cases hJL : env.judgmentLookup with
        | none => exact ⟨rfl, _, rfl⟩
        | some sid =>
          cases hPR : env.postResultOk with
          | false => exact ⟨rfl, _, rfl⟩
          | true =>
            cases fi with
            | none => exact ⟨rfl, _, rfl⟩
            | some impls => exact ⟨rfl, _, rfl⟩

/-- C4: for every result POST whose remote ip matches an executor row, that
idle flag of that row is set true and committed before any forwarding to the Web
backend is attempted (the commit effect heads the trace, and when the commit
fails no forwarding happens at all); when no executor row matches the remote
ip, the handler answers 404 and changes no state. -/
theorem claim_C4 (executors : List ExecutorRow) (ip : String) (jid : Nat)
    (body : Option ResultBody) (env : ForwardEnv) :
    (executors.find? (fun e => e.ip == ip) = none →
      receiveJudgmentResult executors ip jid body env = ⟨executors, 404, []⟩)
    ∧ (∀ ex, executors.find? (fun e => e.ip == ip) = some ex →
        (env.commitOk = false →
          receiveJudgmentResult executors ip jid body env = ⟨executors, 500, []⟩)
        ∧ (env.commitOk = true →
            (∃ tr, (receiveJudgmentResult executors ip jid body env).trace
              = REffect.commitIdle ex.id :: tr)
            ∧ ∀ e ∈ (receiveJudgmentResult executors ip jid body env).executors,
                e.ip = ip → e.idle = true)) := by
  constructor
  · intro hFind
    unfold receiveJudgmentResult
    rw [hFind]
  · intro ex hFind
    constructor
    · intro hCommit
      unfold receiveJudgmentResult
      rw [hFind, hCommit]
      simp
    · intro hCommit
      obtain ⟨hExec, htr⟩ :=
        receive_found_commit executors ip jid body env ex hFind hCommit
      refine ⟨htr, ?_⟩
      intro e he hip
      rw [hExec] at he
      rcases List.mem_map.mp he with ⟨e0, _, hEq⟩
      by_cases h0 : e0.ip = ip
      · rw [if_pos h0] at hEq
        rw [← hEq]
      · rw [if_neg h0] at hEq
        exact absurd (hEq ▸ hip) h0

/-- C4 witness: a result POST from a known busy executor sets it idle and the
commit effect precedes the forwarding effects; an unknown ip gets 404. -/
theorem claim_C4_witness :
    (([{ id := 1, ip := "10.0.0.9", data := "A", lastUpdated := 0, idle := false }]
        : List ExecutorRow).find? (fun e => e.ip == "10.0.0.9")
      = some { id := 1, ip := "10.0.0.9", data := "A", lastUpdated := 0, idle := false })
    ∧ ((true : Bool) = true →
        (∃ tr, (receiveJudgmentResult
            [{ id := 1, ip := "10.0.0.9", data := "A", lastUpdated := 0, idle := false }]
            "10.0.0.9" 7
            (some { result := some "passed", log := some "", functionImpls := none })
            { commitOk := true, judgmentLookup := some 3, postResultOk := true,
              postImplOk := fun _ => true }).trace
          = REffect.commitIdle 1 :: tr)
        ∧ ∀ e ∈ (receiveJudgmentResult
            [{ id := 1, ip := "10.0.0.9", data := "A", lastUpdated := 0, idle := false }]
            "10.0.0.9" 7
            (some { result := some "passed", log := some "", functionImpls := none })
            { commitOk := true, judgmentLookup := some 3, postResultOk := true,
              postImplOk := fun _ => true }).executors,
            e.ip = "10.0.0.9" → e.idle = true) := by
  refine ⟨by decide, ?_⟩
  exact ((claim_C4
    [{ id := 1, ip := "10.0.0.9", data := "A", lastUpdated := 0, idle := false }]
    "10.0.0.9" 7
    (some { result := some "passed", log := some "", functionImpls := none })
    { commitOk := true, judgmentLookup := some 3, postResultOk := true,
      postImplOk := fun _ => true }).2
    { id := 1, ip := "10.0.0.9", data := "A", lastUpdated := 0, idle := false }
    (by decide)).2

/-- C5 counterexample: the handler forwards function implementations for a
body whose `result` is `"failed"` - the claimed `result == "passed"` guard
does not exist in `receive_judgment_result`. -/
theorem claim_C5_counterexample :
    (receiveJudgmentResult
        [{ id := 1, ip := "10.0.0.9", data := "A", lastUpdated := 0, idle := false }]
        "10.0.0.9" 7
        (some { result := some "failed", log := some "boom",
                functionImpls := some ["int f;"] })
        { commitOk := true, judgmentLookup := some 3, postResultOk := true,
          postImplOk := fun _ => true }).trace
      = [REffect.commitIdle 1, REffect.getJudgment 7,
         REffect.postResult 7 "failed" "boom", REffect.postImpl 3 "int f;"]
    ∧ (some "failed" : Option String) ≠ some "passed" := by
  constructor
  · rfl
  · decide

/-- C5 (amended): the per-implementation POSTs happen exactly when the body
contains `function_impls` and the preceding steps (executor lookup, commit,
judgment lookup, result POST) succeed - the `result` value is not consulted,
so implementations are forwarded for any verdict, not only `"passed"`. -/
theorem claim_C5 (executors : List ExecutorRow) (ip : String) (jid : Nat)
    (b : ResultBody) (env : ForwardEnv) :
    (b.functionImpls = none →
      ∀ sid code, REffect.postImpl sid code ∉
        (receiveJudgmentResult executors ip jid (some b) env).trace)
    ∧ (∀ ex res lg sid impls,
        executors.find? (fun e => e.ip == ip) = some ex →
        env.commitOk = true → b.result = some res → b.log = some lg →
        env.judgmentLookup = some sid → env.postResultOk = true →
        b.functionImpls = some impls →
        (receiveJudgmentResult executors ip jid (some b) env).trace
          = [REffect.commitIdle ex.id, REffect.getJudgment jid,
             REffect.postResult jid res lg] ++ forwardImpls sid impls env.postImplOk) := by
  constructor
  · intro hNone sid code
    unfold receiveJudgmentResult
    obtain ⟨r, l, fi⟩ := b
    cases fi with
    | some impls => simp at hNone
    | none =>
      cases hFind : executors.find? (fun e => e.ip == ip) with
      | none => simp
      | some ex =>
        cases hCommit : env.commitOk with
        | false => simp
        | true =>
          cases r with
          | none => simp
          | some res =>
            cases l with
            | none => simp
            | some lg =>
              cases hJL : env.judgmentLookup with
              | none => simp
              | some sid2 =>
                cases hPR : env.postResultOk with
                | false => simp
                | true => simp
  · intro ex res lg sid impls hFind hCommit hRes hLog hJL hPR hImpls
    obtain ⟨r, l, fi⟩ := b
    have hr : r = some res := hRes
    have hl : l = some lg := hLog
    have hf : fi = some impls := hImpls
    subst hr
    subst hl
    subst hf
    unfold receiveJudgmentResult
    rw [hFind, hCommit, hJL, hPR]
    simp

/-- C5 witness: with all external calls succeeding and a `"failed"` verdict
carrying one implementation, the trace ends with the implementation POST. -/
theorem claim_C5_witness :
    (receiveJudgmentResult
        [{ id := 1, ip := "10.0.0.9", data := "A", lastUpdated := 0, idle := false }]
        "10.0.0.9" 7
        (some { result := some "failed", log := some "boom",
                functionImpls := some ["int g;"] })
        { commitOk := true, judgmentLookup := some 3, postResultOk := true,
          postImplOk := fun _ => true }).trace
      = [REffect.commitIdle 1, REffect.getJudgment 7,
         REffect.postResult 7 "failed" "boom"]
        ++ forwardImpls 3 ["int g;"] (fun _ => true) := by
  exact (claim_C5
    [{ id := 1, ip := "10.0.0.9", data := "A", lastUpdated := 0, idle := false }]
    "10.0.0.9" 7
    { result := some "failed", log := some "boom", functionImpls := some ["int g;"] }
    { commitOk := true, judgmentLookup := some 3, postResultOk := true,
      postImplOk := fun _ => true }).2
    { id := 1, ip := "10.0.0.9", data := "A", lastUpdated := 0, idle := false }
    "failed" "boom" 3 ["int g;"] (by decide) rfl rfl rfl rfl rfl rfl

/-- `update_executor_status` (`judger/manager/__init__.py` lines 117-154):
the heartbeat sink. `body = none` models a request whose JSON could not be
read (`get_json(silent=True)` returned `None`); otherwise `body` carries the
re-serialized JSON text (`json.dumps(data)`). An existing row (matched by
remote ip) gets only its `data` (and `last_updated`) replaced; a new row is
created with the model default `idle=True`. `commitOk = false` models a
failing `db.session.commit()`, answered 500 after rollback. -/
def updateExecutorStatus (executors : List ExecutorRow) (ip : String)
    (body : Option String) (commitOk : Bool) (now : Nat) (freshId : Nat) :
    List ExecutorRow × Nat :=
  match body with
  | none => (executors, 400)
  | some jsonData =>
    match executors.find? (fun e => e.ip == ip) with
    | some _ =>
      if commitOk then
        (executors.map fun e =>
          if e.ip = ip then { e with data := jsonData, lastUpdated := now } else e, 200)
      else (executors, 500)
    | none =>
      if commitOk then
        (executors ++ [{ id := freshId, ip := ip, data := jsonData,
                         lastUpdated := now, idle := true }], 200)
      else (executors, 500)

/-- C10: the heartbeat upsert never writes the idle flag: updating an
existing executor row changes only its data and timestamp (every row keeps
its id, ip and idle bit), and a newly created executor row always starts
with `idle = true`. -/
theorem claim_C10 (executors : List ExecutorRow) (ip : String)
    (jsonData : String) (now freshId : Nat) :
    (∀ ex, executors.find? (fun e => e.ip == ip) = some ex →
      (∀ e ∈ (updateExecutorStatus executors ip (some jsonData) true now freshId).1,
        ∃ e0 ∈ executors, e.id = e0.id ∧ e.ip = e0.ip ∧ e.idle = e0.idle)
      ∧ (∀ e ∈ (updateExecutorStatus executors ip (some jsonData) true now freshId).1,
          e.ip = ip → e.data = jsonData))
    ∧ (executors.find? (fun e => e.ip == ip) = none →
      (updateExecutorStatus executors ip (some jsonData) true now freshId).1
        = executors ++ [{ id := freshId, ip := ip, data := jsonData,
                          lastUpdated := now, idle := true }]) := by
  constructor
  · intro ex hFind
    have hStep : (updateExecutorStatus executors ip (some jsonData) true now freshId).1
        = executors.map fun e =>
            if e.ip = ip then { e with data := jsonData, lastUpdated := now } else e := by
      unfold updateExecutorStatus
      rw [hFind]
      simp
    rw [hStep]
    constructor
    · intro e he
      rcases List.mem_map.mp he with ⟨e0, he0, hEq⟩
      refine ⟨e0, he0, ?_⟩
      by_cases h0 : e0.ip = ip
      · rw [if_pos h0] at hEq
        rw [← hEq]
        exact ⟨rfl, rfl, rfl⟩
      · rw [if_neg h0] at hEq
        rw [← hEq]
        exact ⟨rfl, rfl, rfl⟩
    · intro e he hip
      rcases List.mem_map.mp he with ⟨e0, _, hEq⟩
      by_cases h0 : e0.ip = ip
      · rw [if_pos h0] at hEq
        rw [← hEq]
      · rw [if_neg h0] at hEq
        exact absurd (hEq ▸ hip) h0
  · intro hFind
    unfold updateExecutorStatus
    rw [hFind]
    simp

/-- C10 witness: a heartbeat from a busy executor keeps it busy (only data
and timestamp change); a heartbeat from an unknown ip creates an idle row. -/
theorem claim_C10_witness :
    ((∀ e ∈ (updateExecutorStatus
          [{ id := 1, ip := "10.0.0.9", data := "old", lastUpdated := 0, idle := false }]
          "10.0.0.9" (some "new") true 5 2).1,
        ∃ e0 ∈ ([{ id := 1, ip := "10.0.0.9", data := "old", lastUpdated := 0,
                   idle := false }] : List ExecutorRow),
          e.id = e0.id ∧ e.ip = e0.ip ∧ e.idle = e0.idle)
      ∧ (∀ e ∈ (updateExecutorStatus
            [{ id := 1, ip := "10.0.0.9", data := "old", lastUpdated := 0, idle := false }]
            "10.0.0.9" (some "new") true 5 2).1,
          e.ip = "10.0.0.9" → e.data = "new"))
    ∧ (updateExecutorStatus
          [{ id := 1, ip := "10.0.0.9", data := "old", lastUpdated := 0, idle := false }]
          "10.0.0.7" (some "new") true 5 2).1
        = [{ id := 1, ip := "10.0.0.9", data := "old", lastUpdated := 0, idle := false },
           { id := 2, ip := "10.0.0.7", data := "new", lastUpdated := 5, idle := true }] := by
  constructor
  · exact (claim_C10
      [{ id := 1, ip := "10.0.0.9", data := "old", lastUpdated := 0, idle := false }]
      "10.0.0.9" "new" 5 2).1
      { id := 1, ip := "10.0.0.9", data := "old", lastUpdated := 0, idle := false }
      (by decide)
  · exact (claim_C10
      [{ id := 1, ip := "10.0.0.9", data := "old", lastUpdated := 0, idle := false }]
      "10.0.0.7" "new" 5 2).2 (by decide)

end ManagerApp

namespace TemplateMgr

/-- Cache entry of `TemplateManager.template_cache`; `updatedAt` is the
`datetime.fromisoformat` value of the stored ISO-8601 string, modelled as an
integer timestamp (the comparison in `get_template` is between parsed
datetimes). -/
structure TCacheEntry where
  updatedAt : Int
  path : String
  dirName : String
deriving DecidableEq

/-- State of a `TemplateManager`: the in-memory cache dictionary and the set
of template ids whose directory exists under the on-disk cache dir. -/
structure TMState where
  cache : List (Nat × TCacheEntry)
  disk : List Nat
deriving DecidableEq

/-- Filesystem and network effects of the template manager. -/
inductive TEffect where
  | purge (templateId : Nat)
  | download (templateId : Nat)
deriving DecidableEq

/-- Exceptions `_download_template` can raise: the explicit `RuntimeError`
for more than one top-level entry, the `IndexError` from `contents[0]` on an
empty archive, and the `TypeError` from subscripting a missing cache entry
(unreachable after a successful download). -/
inductive DLErr where
  | singleDirAssert
  | indexError
  | typeError
deriving DecidableEq

/-- A top-level entry of the unpacked archive, as seen by
`extracted_dir.iterdir()`. -/
structure ZEntry where
  name : String
  isDir : Bool
deriving DecidableEq

/-- Index of the last dot in a list of characters. -/
def lastDotIdx (cs : List Char) : Option Nat :=
  ((List.range cs.length).filter fun i => cs.getD i ' ' = '.').getLast?

/-- `pathlib.PurePath.stem`: the final component without its last suffix; a
dot at position 0 or at the very end does not start a suffix. -/
def stem (name : String) : String :=
  let cs := name.toList
  match lastDotIdx cs with
  | none => name
  | some i => if 0 < i ∧ i < cs.length - 1 then String.mk (cs.take i) else name

/-- `self.template_cache.get(template_id)`. -/
def lookupCache (tid : Nat) (cache : List (Nat × TCacheEntry)) : Option TCacheEntry :=
  (cache.find? fun p => p.1 == tid).map fun p => p.2

/-- `self.template_cache[template_id] = {...}`: replace or append. -/
def upsertCache (tid : Nat) (v : TCacheEntry) :
    List (Nat × TCacheEntry) → List (Nat × TCacheEntry)
  | [] => [(tid, v)]
  | (k, w) :: rest =>
    if k = tid then (tid, v) :: rest else (k, w) :: upsertCache tid v rest

/-- The template directory exists after `template_dir.mkdir()`. -/
def insertDisk (tid : Nat) (disk : List Nat) : List Nat :=
  if tid ∈ disk then disk else tid :: disk

/-- `TemplateManager._download_template` (lines 54-99): purge the on-disk
directory if present, download and unpack the archive, then inspect the
top-level entries: more than one raises the explicit `RuntimeError`; an
empty archive hits `contents[0]` and raises `IndexError`; otherwise the
single entry (directory or not) is recorded in the cache with
`dir_name = entry.stem`. Returns the raised error (if any), the new state,
and the effect trace. -/
def downloadTemplate (st : TMState) (tid : Nat) (updatedAt : Int)
    (contents : List ZEntry) : Option DLErr × TMState × List TEffect :=
  let effs := (if tid ∈ st.disk then [TEffect.purge tid] else []) ++ [TEffect.download tid]
  let disk2 := insertDisk tid st.disk
  if contents.length > 1 then
    (some DLErr.singleDirAssert, { st with disk := disk2 }, effs)
  else
    match contents with
    | [] => (some DLErr.indexError, { st with disk := disk2 }, effs)
    | entry :: _ =>
      (none,
       { cache := upsertCache tid ⟨updatedAt, entry.name, stem entry.name⟩ st.cache,
         disk := disk2 }, effs)

/-- What `get_template` returns: `{path, dir_name}`. -/
structure TemplateResult where
  path : String
  dirName : String
deriving DecidableEq

/-- Full outcome of a `get_template` call: raised error (if any), returned
value (if any), resulting manager state, and effect trace. -/
structure GTResult where
  err : Option DLErr
  res : Option TemplateResult
  state : TMState
  effects : List TEffect
deriving DecidableEq

/-- The refetch path of `get_template` (lines 46-52): run
`_download_template`, then read the cache entry again and return its
`path`/`dir_name`. -/
def downloadPath (st : TMState) (tid : Nat) (u : Int) (contents : List ZEntry) : GTResult :=
  match downloadTemplate st tid u contents with
  | (some e, st2, effs) => ⟨some e, none, st2, effs⟩
  | (none, st2, effs) =>
    match lookupCache tid st2.cache with
    | some entry => ⟨none, some ⟨entry.path, entry.dirName⟩, st2, effs⟩
    | none => ⟨some DLErr.typeError, none, st2, effs⟩

/-- `TemplateManager.get_template` (lines 23-52): fetch the remote
`updated_at` (the `remoteUpdatedAt` argument), return the cached entry when
it is at least as new, otherwise download. -/
def getTemplate (st : TMState) (tid : Nat) (remoteUpdatedAt : Int)
    (contents : List ZEntry) : GTResult :=
  match lookupCache tid st.cache with
  | some entry =>
    if entry.updatedAt ≥ remoteUpdatedAt then
      ⟨none, some ⟨entry.path, entry.dirName⟩, st, []⟩
    else downloadPath st tid remoteUpdatedAt contents
  | none => downloadPath st tid remoteUpdatedAt contents

theorem lookupCache_upsert (tid : Nat) (v : TCacheEntry)
    (c : List (Nat × TCacheEntry)) :
    lookupCache tid (upsertCache tid v c) = some v := by
  induction c with
  | nil => simp [lookupCache, upsertCache]
  | cons p rest ih =>
    obtain ⟨k, w⟩ := p
    by_cases hk : k = tid
    · subst hk
      simp [upsertCache, lookupCache]
    · simp only [upsertCache, if_neg hk]
      simp only [lookupCache] at ih ⊢
      rw [List.find?_cons_of_neg _ (by simp [hk])]
      exact ih

theorem downloadPath_effects (st : TMState) (tid : Nat) (u : Int)
    (contents : List ZEntry) :
    (downloadPath st tid u contents).effects =
      (if tid ∈ st.disk then [TEffect.purge tid] else []) ++ [TEffect.download tid] := by
  by_cases hLen : contents.length > 1
  · simp [downloadPath, downloadTemplate, hLen]
  · cases contents with
    | nil => simp [downloadPath, downloadTemplate, hLen]
    | cons entry rest =>
      have hRest : rest = [] := by
        cases rest with
        | nil => rfl
        | cons b bs =>
          exfalso
          apply hLen
          simp [List.length_cons]
      subst hRest
      simp [downloadPath, downloadTemplate, lookupCache_upsert]

/-- C6: if the cache holds an entry for the template id whose `updated_at`
is at least the remote `updated_at`, the cached `{path, dir_name}` is
returned with no effects (in particular no download); otherwise (stale entry
or no entry) the template is refetched - the download effect occurs, and the
on-disk directory, when present, is purged. -/
theorem claim_C6 (st : TMState) (tid : Nat) (u : Int) (contents : List ZEntry) :
    (∀ e, lookupCache tid st.cache = some e → e.updatedAt ≥ u →
      getTemplate st tid u contents = ⟨none, some ⟨e.path, e.dirName⟩, st, []⟩)
    ∧ (∀ e, lookupCache tid st.cache = some e → e.updatedAt < u →
      TEffect.download tid ∈ (getTemplate st tid u contents).effects
      ∧ (tid ∈ st.disk → TEffect.purge tid ∈ (getTemplate st tid u contents).effects))
    ∧ (lookupCache tid st.cache = none →
      TEffect.download tid ∈ (getTemplate st tid u contents).effects
      ∧ (tid ∈ st.disk → TEffect.purge tid ∈ (getTemplate st tid u contents).effects)) := by
  refine ⟨?_, ?_, ?_⟩
  · intro e hLk hGe
    simp [getTemplate, hLk, hGe]
  · intro e hLk hLt
    have hDP : getTemplate st tid u contents = downloadPath st tid u contents := by
      simp [getTemplate, hLk]
      intro hGe
      omega
    rw [hDP, downloadPath_effects]
    constructor
    · simp
    · intro hDisk
      simp [hDisk]
  · intro hLk
    have hDP : getTemplate st tid u contents = downloadPath st tid u contents := by
      simp [getTemplate, hLk]
    rw [hDP, downloadPath_effects]
    constructor
    · simp
    · intro hDisk
      simp [hDisk]

/-- C6 witness: a fresh-enough cache entry is served with no effects. -/
theorem claim_C6_witness :
    (lookupCache 3 (TMState.mk [(3, ⟨10, "p", "d"⟩)] [3]).cache = some ⟨10, "p", "d"⟩
      ∧ (10 : Int) ≥ 9)
    ∧ getTemplate ⟨[(3, ⟨10, "p", "d"⟩)], [3]⟩ 3 9 []
        = ⟨none, some ⟨"p", "d"⟩, ⟨[(3, ⟨10, "p", "d"⟩)], [3]⟩, []⟩ := by
  refine ⟨⟨rfl, by decide⟩, ?_⟩
  exact (claim_C6 ⟨[(3, ⟨10, "p", "d"⟩)], [3]⟩ 3 9 []).1 ⟨10, "p", "d"⟩ rfl (by decide)

/-- C7 counterexample: an archive whose single top-level entry is a plain
file (not a directory) is accepted without any error, and the recorded
`dir_name` is the stem `"readme"`, not the basename `"readme.txt"` - the
claimed assert on "exactly one top-level directory" does not happen. -/
theorem claim_C7_counterexample :
    (downloadTemplate ⟨[], []⟩ 5 10 [⟨"readme.txt", false⟩]).1 = none
    ∧ lookupCache 5 (downloadTemplate ⟨[], []⟩ 5 10 [⟨"readme.txt", false⟩]).2.1.cache
        = some ⟨10, "readme.txt", "readme"⟩
    ∧ ([(⟨"readme.txt", false⟩ : ZEntry)].all fun z => z.isDir) = false := by
  refine ⟨rfl, ?_, rfl⟩
  rfl

/-- C7 (amended): `_download_template` raises its clear `RuntimeError` only
when the archive has more than one top-level entry; an empty archive raises
a bare `IndexError`; a single top-level entry is accepted whether or not it
is a directory, recording `{updated_at, path = entry, dir_name = entry
stem}` in the cache. -/
theorem claim_C7 (st : TMState) (tid : Nat) (u : Int) (contents : List ZEntry) :
    (contents.length > 1 →
      (downloadTemplate st tid u contents).1 = some DLErr.singleDirAssert)
    ∧ (contents = [] →
      (downloadTemplate st tid u contents).1 = some DLErr.indexError)
    ∧ (∀ entry, contents = [entry] →
      (downloadTemplate st tid u contents).1 = none
      ∧ lookupCache tid (downloadTemplate st tid u contents).2.1.cache
          = some ⟨u, entry.name, stem entry.name⟩) := by
  refine ⟨?_, ?_, ?_⟩
  · intro hLen
    simp [downloadTemplate, hLen]
  · rintro rfl
    simp [downloadTemplate]
  · rintro entry rfl
    constructor
    · simp [downloadTemplate]
    · simp [downloadTemplate, lookupCache_upsert]

/-- C7 witness: a single top-level directory is recorded in the cache with
its own name as `dir_name`. -/
theorem claim_C7_witness :
    (downloadTemplate ⟨[], []⟩ 3 7 [⟨"proj", true⟩]).1 = none
    ∧ lookupCache 3 (downloadTemplate ⟨[], []⟩ 3 7 [⟨"proj", true⟩]).2.1.cache
        = some ⟨7, "proj", "proj"⟩ := by
  exact (claim_C7 ⟨[], []⟩ 3 7 [⟨"proj", true⟩]).2.2 ⟨"proj", true⟩ rfl

end TemplateMgr

namespace Extractor

/-- Cursor kinds the extractor inspects (`clang.cindex.CursorKind`); every
other kind is `otherKind`. -/
inductive CKind where
  | functionDecl
  | cxxMethod
  | classDecl
  | structDecl
  | compoundStmt
  | otherKind (tag : String)
deriving DecidableEq

/-- The fields of a libclang cursor that `_find_function_signature` and
`_is_function_match` read: kind, spelling, semantic parent (kind and
spelling, when any), the canonical spelling of the result type, and the
canonical spellings of the argument types. -/
structure CData where
  kind : CKind
  spelling : String
  parent : Option (CKind × String)
  resultTypeCanonical : String
  argTypesCanonical : List String
deriving DecidableEq

/-- A cursor subtree of a parsed translation unit. -/
inductive CTree where
  | node (data : CData) (children : List CTree)

/-- The cursor data at the root of a subtree. -/
def CTree.data : CTree → CData
  | .node d _ => d

/-- The children of a cursor (`cursor.get_children()`). -/
def CTree.children : CTree → List CTree
  | .node _ cs => cs

mutual

/-- `cursor.walk_preorder()`: the cursor itself, then the pre-order walks of
its children in order. -/
def walkPreorder : CTree → List CTree
  | .node d cs => .node d cs :: walkList cs

/-- Pre-order walk of a list of sibling subtrees. -/
def walkList : List CTree → List CTree
  | [] => []
  | t :: ts => walkPreorder t ++ walkList ts

end

/-- A cursor has a compound-statement child, i.e. a function body
(the `for child in cursor.get_children()` search for `COMPOUND_STMT`). -/
def hasBody (c : CTree) : Bool :=
  c.children.any fun ch => ch.data.kind == CKind.compoundStmt

/-- The kinds considered by the search loop: `FUNCTION_DECL` or
`CXX_METHOD`. -/
def isCandidate (c : CTree) : Bool :=
  c.data.kind == CKind.functionDecl || c.data.kind == CKind.cxxMethod

/-- Helper of `pyColonSplit`: accumulates the current piece (reversed). -/
def pyColonSplitAux : List Char → List Char → List String
  | [], acc => [String.mk acc.reverse]
  | ':' :: ':' :: rest, acc => String.mk acc.reverse :: pyColonSplitAux rest []
  | ch :: rest, acc => pyColonSplitAux rest (ch :: acc)

/-- Python `name.split("::")`: greedy left-to-right split on the two-colon
separator. -/
def pyColonSplit (name : String) : List String :=
  pyColonSplitAux name.toList []

/-- A function parameter of a signature (`function_types.FunctionParameter`). -/
structure FunctionParameter where
  name : String
  type : String
deriving DecidableEq

/-- A function signature (`function_types.FunctionSignature`). -/
structure FunctionSignature where
  returnType : String
  name : String
  parameters : List FunctionParameter
deriving DecidableEq

/-- The type checks of `_is_function_match` (lines 297-320): the canonical
result type equals the canonical spelling of the parsed signature return
type, the argument count matches, and each argument type matches
canonically. `canon` maps a signature type string to the canonical spelling
obtained by `_parse_types` (`self._types[...].get_canonical().spelling`). -/
def typesMatch (canon : String → String) (sig : FunctionSignature) (c : CTree) : Bool :=
  (c.data.resultTypeCanonical == canon sig.returnType)
    && (c.data.argTypesCanonical.length == sig.parameters.length)
    && ((c.data.argTypesCanonical.zip (sig.parameters.map fun p => p.type)).all
          fun pr => pr.1 == canon pr.2)

/-- `_is_function_match` given the already split name parts. A name with
more than one `::` raises `ValueError` (the `Except.error` case). For a
qualified name, the cursor spelling must equal the method name and the
semantic parent must be a class or struct declaration spelled like the class
name; for a plain name, the cursor spelling must equal it. Then the type
checks run. -/
def isFunctionMatchParts (canon : String → String) (sig : FunctionSignature)
    (c : CTree) (parts : List String) : Except Unit Bool :=
  if parts.length ≥ 2 then
    if parts.length > 2 then Except.error ()
    else
      if !(c.data.spelling == parts.getD 1 "") then Except.ok false
      else
        match c.data.parent with
        | none => Except.ok false
        | some pr =>
          if !(pr.1 == CKind.classDecl || pr.1 == CKind.structDecl) then Except.ok false
          else if !(pr.2 == parts.getD 0 "") then Except.ok false
          else Except.ok (typesMatch canon sig c)
  else
    if !(c.data.spelling == sig.name) then Except.ok false
    else Except.ok (typesMatch canon sig c)

/-- `_is_function_match` (lines 244-320). -/
def isFunctionMatch (canon : String → String) (sig : FunctionSignature)
    (c : CTree) : Except Unit Bool :=
  isFunctionMatchParts canon sig c (pyColonSplit sig.name)

/-- The search loop of `_find_function_signature` over the pre-order cursor
list: consider function declarations and methods, skip a match without a
compound-statement child, return the first match with one. -/
def findInList (canon : String → String) (sig : FunctionSignature) :
    List CTree → Except Unit (Option CTree)
  | [] => Except.ok none
  | c :: rest =>
    if isCandidate c then
      match isFunctionMatch canon sig c with
      | Except.error e => Except.error e
      | Except.ok true =>
        if hasBody c then Except.ok (some c) else findInList canon sig rest
      | Except.ok false => findInList canon sig rest
    else findInList canon sig rest

/-- `_find_function_signature` (lines 213-242). -/
def findFunctionSignature (canon : String → String) (sig : FunctionSignature)
    (root : CTree) : Except Unit (Option CTree) :=
  findInList canon sig (walkPreorder root)

/-- The boolean reading of a match result (false on the error case, which is
excluded whenever the name has at most one `::`). -/
def matchBool (canon : String → String) (sig : FunctionSignature) (c : CTree) : Bool :=
  match isFunctionMatch canon sig c with
  | Except.ok b => b
  | Except.error _ => false

theorem isFunctionMatch_ok (canon : String → String) (sig : FunctionSignature)
    (c : CTree) (h : (pyColonSplit sig.name).length ≤ 2) :
    isFunctionMatch canon sig c = Except.ok (matchBool canon sig c) := by
  have hex : ∃ b, isFunctionMatch canon sig c = Except.ok b := by
    unfold isFunctionMatch isFunctionMatchParts
    by_cases h2 : (pyColonSplit sig.name).length ≥ 2
    · rw [if_pos h2, if_neg (by omega : ¬ (pyColonSplit sig.name).length > 2)]
      split
      · exact ⟨_, rfl⟩
      · split
        · exact ⟨_, rfl⟩
        · split
          · exact ⟨_, rfl⟩
          · split
            · exact ⟨_, rfl⟩
            · exact ⟨_, rfl⟩
    · rw [if_neg h2]
      split
      · exact ⟨_, rfl⟩
      · exact ⟨_, rfl⟩
  obtain ⟨b, hb⟩ := hex
  rw [hb]
  unfold matchBool
  rw [hb]

theorem findInList_eq_find (canon : String → String) (sig : FunctionSignature)
    (h : (pyColonSplit sig.name).length ≤ 2) (l : List CTree) :
    findInList canon sig l =
      Except.ok (l.find? fun c => isCandidate c && matchBool canon sig c && hasBody c) := by
  induction l with
  | nil => rfl
  | cons c rest ih =>
    have hb := isFunctionMatch_ok canon sig c h
    by_cases hCand : isCandidate c = true
    · simp only [findInList]
      rw [if_pos hCand, hb]
      cases hmb : matchBool canon sig c with
      | true =>
        by_cases hBody : hasBody c = true
        · rw [if_pos hBody]
          rw [List.find?_cons_of_pos rest (by simp [hCand, hmb, hBody])]
        · rw [if_neg hBody]
          rw [List.find?_cons_of_neg rest (by simp [hBody])]
          exact ih
      | false =>
        rw [List.find?_cons_of_neg rest (by simp [hmb])]
        exact ih
    · simp only [findInList]
      rw [if_neg hCand]
      rw [List.find?_cons_of_neg rest (by simp [hCand])]
      exact ih

/-- C8: for every translation unit and (supported) signature, the definition
search walks the AST in pre-order and returns exactly the first cursor that
is a function declaration or method, matches the signature, and has a
compound-statement body child; cursors that match but have no body (pure
declarations) are skipped, and when no matching cursor with a body exists
the search yields null. The hypothesis restricts the name to at most one
`::`, which the extractor requires (more is a hard `ValueError`). -/
theorem claim_C8 (canon : String → String) (sig : FunctionSignature) (root : CTree)
    (h : (pyColonSplit sig.name).length ≤ 2) :
    findFunctionSignature canon sig root =
      Except.ok ((walkPreorder root).find?
        fun c => isCandidate c && matchBool canon sig c && hasBody c) :=
  findInList_eq_find canon sig h (walkPreorder root)

/-- A pure declaration of `int f()` (no compound body). -/
def c8decl : CTree := CTree.node ⟨CKind.functionDecl, "f", none, "int", []⟩ []

/-- A definition of `int f()` (with a compound body child). -/
def c8defn : CTree :=
  CTree.node ⟨CKind.functionDecl, "f", none, "int", []⟩
    [CTree.node ⟨CKind.compoundStmt, "", none, "", []⟩ []]

/-- A translation unit holding the declaration before the definition. -/
def c8root : CTree :=
  CTree.node ⟨CKind.otherKind "translationUnit", "", none, "", []⟩ [c8decl, c8defn]

/-- C8 witness: on a TU with a declaration followed by a definition of the
same signature, the search skips the bodyless declaration and returns the
definition. -/
theorem claim_C8_witness :
    (pyColonSplit (FunctionSignature.mk "int" "f" []).name).length ≤ 2
    ∧ findFunctionSignature (fun t => t) ⟨"int", "f", []⟩ c8root
        = Except.ok ((walkPreorder c8root).find?
            fun c => isCandidate c && matchBool (fun t => t) ⟨"int", "f", []⟩ c && hasBody c)
    ∧ findFunctionSignature (fun t => t) ⟨"int", "f", []⟩ c8root
        = Except.ok (some c8defn) := by
  refine ⟨by decide, claim_C8 (fun t => t) ⟨"int", "f", []⟩ c8root (by decide), ?_⟩
  rfl

end Extractor

namespace Validate

/-- One raw element of the `--function-requirements` JSON, with the keys the
parsing loop of `validate.py` reads (`req_data[id]`,
`req_data[source_file_path]`, `req_data[function_signature]`). -/
structure ReqData where
  id : Nat
  sourceFilePath : String
  signature : Extractor.FunctionSignature
deriving DecidableEq

/-- `function_types.FunctionRequirement`: a dataclass with FOUR required
fields (`id`, `problem_id`, `source_file_path`, `function_signature`). -/
structure FunctionRequirement where
  id : Nat
  problemId : Nat
  sourceFilePath : String
  signature : Extractor.FunctionSignature
deriving DecidableEq

/-- The requirement-parsing loop of `extract_and_log_functions`
(`validate.py` lines 165-185). For each element the loop builds the
signature (which succeeds) and then calls
`FunctionRequirement(req_data[id], req_data[source_file_path],
function_signature)` - three positional arguments for the four required
dataclass fields of `function_types.FunctionRequirement` (lines 26-32).
In Python this raises `TypeError: missing 1 required positional argument`
on the first element; the surrounding `except Exception` (lines 232-235)
converts it to `RuntimeError(failed to extract function implementation)`.
Only an empty list never enters the loop. -/
def parseRequirements : List ReqData → Except String (List FunctionRequirement)
  | [] => Except.ok []
  | _ :: _ => Except.error "failed to extract function implementation"

/-- `FunctionExtractor.extract_function_implementation`
(`function_extractor.py` lines 135-211). `getCompileCommands` models
`self.compile_db.getCompileCommands(path)`: it returns `none` when the
source file has no entry in `compile_commands.json`, in which case the
Python subscript `[0]` on `None` raises `TypeError`, converted by the
generic `except Exception` handler (lines 206-211) to
`RuntimeError(failed to extract function implementation)`. With a
compile command, the TU is parsed (`parseTU`, abstracting libclang) and the
signature search runs; a `ValueError` from a name with more than one `::`
is converted to the same `RuntimeError`; a missing definition yields `none`;
otherwise `_extract_function_body` (abstracted as `extractBody`, whose
`RuntimeError` is re-raised unchanged) produces the text. -/
def extractFunctionImplementation
    (getCompileCommands : String → Option (List String))
    (parseTU : String → Extractor.CTree)
    (canon : String → String)
    (extractBody : Extractor.CTree → Except String (Option String))
    (sig : Extractor.FunctionSignature)
    (sourceFilePath : String) : Except String (Option String) :=
  match getCompileCommands sourceFilePath with
  | none => Except.error "failed to extract function implementation"
  | some _args =>
    match Extractor.findFunctionSignature canon sig (parseTU sourceFilePath) with
    | Except.error _ => Except.error "failed to extract function implementation"
    | Except.ok none => Except.ok none
    | Except.ok (some c) => extractBody c

/-- The per-requirement extraction loop of `extract_and_log_functions`
(lines 192-227): resolve the source path under the working directory, raise
when the file is missing, extract; a `none` result aborts with `none`
(not-found), a raised `RuntimeError` propagates, otherwise the
implementation is collected. -/
def extractLoop (fileExists : String → Bool)
    (extract : String → Extractor.FunctionSignature → Except String (Option String))
    (templateDir : String) :
    List FunctionRequirement → Except String (Option (List String))
  | [] => Except.ok (some [])
  | req :: rest =>
    if !(fileExists (templateDir ++ "/" ++ req.sourceFilePath)) then
      Except.error ("source file " ++ (templateDir ++ "/" ++ req.sourceFilePath)
        ++ " not found")
    else
      match extract (templateDir ++ "/" ++ req.sourceFilePath) req.signature with
      | Except.error e => Except.error e
      | Except.ok none => Except.ok none
      | Except.ok (some impl) =>
        match extractLoop fileExists extract templateDir rest with
        | Except.error e => Except.error e
        | Except.ok none => Except.ok none
        | Except.ok (some impls) => Except.ok (some (impl :: impls))

/-- `extract_and_log_functions` (lines 148-235): parse the requirement list,
then run the extraction loop. -/
def extractAndLogFunctions (fileExists : String → Bool)
    (extract : String → Extractor.FunctionSignature → Except String (Option String))
    (templateDir : String) (raw : List ReqData) : Except String (Option (List String)) :=
  match parseRequirements raw with
  | Except.error e => Except.error e
  | Except.ok reqs => extractLoop fileExists extract templateDir reqs

/-- The payload `submit_result` POSTs to the Manager (lines 19-47):
`function_impls` is attached only when the verdict is `passed` and the list
is present. -/
structure Payload where
  result : String
  log : String
  functionImpls : Option (List String)
deriving DecidableEq

/-- `submit_result`: build the POST payload. -/
def submitPayload (result : String) (log : String)
    (impls : Option (List String)) : Payload :=
  { result := result, log := log,
    functionImpls := if result = "passed" then impls else none }

/-- Python truthiness of the optional `unit_test_name` argument
(`if unit_test_name:`): an absent or empty name skips the tests. -/
def runTestFlag : Option String → Bool
  | some s => !(s == "")
  | none => false

/-- `main` of `validate.py` (lines 238-283). `compileOutcome` and
`testOutcome` are the `(success, log)` pairs of `compile_project` and
`run_tests`; `reqsJson` is the parsed `--function-requirements` argument
(`none` when absent). A failing step submits `failed` with its log; an
extraction exception is caught by the top-level handler and submitted as
`error` with `str(e)`; a `none` extraction submits `failed` with the
not-found message; otherwise `passed`. -/
def mainPipeline (compileOutcome : Bool × String) (unitTestName : Option String)
    (testOutcome : Bool × String) (reqsJson : Option (List ReqData))
    (fileExists : String → Bool)
    (extract : String → Extractor.FunctionSignature → Except String (Option String))
    (templateDir : String) : Payload :=
  if !compileOutcome.1 then submitPayload "failed" compileOutcome.2 none
  else if runTestFlag unitTestName && !testOutcome.1 then
    submitPayload "failed" testOutcome.2 none
  else
    match reqsJson with
    | none => submitPayload "passed" "" none
    | some raw =>
      match extractAndLogFunctions fileExists extract templateDir raw with
      | Except.error e => submitPayload "error" e none
      | Except.ok none => submitPayload "failed" "未找到题目要求的所有函数实现" none
      | Except.ok (some impls) => submitPayload "passed" "" (some impls)

/-- C1 counterexample: with a requirement whose source file exists but has no
entry in `compile_commands.json` (the lookup returns `none` for every path),
the pipeline submits verdict `error`, not the claimed `failed`. -/
theorem claim_C1_counterexample :
    (mainPipeline (true, "") none (true, "")
        (some [⟨1, "src/geo.cc", ⟨"int", "f", []⟩⟩])
        (fun _ => true)
        (fun p sig => extractFunctionImplementation (fun _ => none)
          (fun _ => Extractor.CTree.node
            ⟨Extractor.CKind.otherKind "tu", "", none, "", []⟩ [])
          (fun t => t) (fun _ => Except.ok none) sig p)
        "tmpl").result = "error"
    ∧ (mainPipeline (true, "") none (true, "")
        (some [⟨1, "src/geo.cc", ⟨"int", "f", []⟩⟩])
        (fun _ => true)
        (fun p sig => extractFunctionImplementation (fun _ => none)
          (fun _ => Extractor.CTree.node
            ⟨Extractor.CKind.otherKind "tu", "", none, "", []⟩ [])
          (fun t => t) (fun _ => Except.ok none) sig p)
        "tmpl").result ≠ "failed" := by
  exact ⟨rfl, by decide⟩

/-- C1 (amended): a `compile_commands.json` lookup miss makes
`extract_function_implementation` raise
`RuntimeError(failed to extract function implementation)` (the `[0]`
subscript on the `None` lookup result raises `TypeError`, converted by the
generic handler), and the pipeline submits verdict `error` - never `failed` -
for such a judgment; indeed, with the current requirement-parsing defect the
pipeline submits this `error` for every non-empty requirement list. -/
theorem claim_C1 (getCC : String → Option (List String))
    (parseTU : String → Extractor.CTree) (canon : String → String)
    (extractBody : Extractor.CTree → Except String (Option String))
    (sig : Extractor.FunctionSignature) (p : String)
    (hMissing : getCC p = none)
    (compileLog : String) (unitTestName : Option String) (testOutcome : Bool × String)
    (hTest : (runTestFlag unitTestName && !testOutcome.1) = false)
    (fileExists : String → Bool) (templateDir : String)
    (r : ReqData) (rest : List ReqData) :
    extractFunctionImplementation getCC parseTU canon extractBody sig p
      = Except.error "failed to extract function implementation"
    ∧ mainPipeline (true, compileLog) unitTestName testOutcome (some (r :: rest))
        fileExists
        (fun p2 sig2 =>
          extractFunctionImplementation getCC parseTU canon extractBody sig2 p2)
        templateDir
      = { result := "error", log := "failed to extract function implementation",
          functionImpls := none } := by
  constructor
  · unfold extractFunctionImplementation
    rw [hMissing]
  · simp [mainPipeline, hTest, extractAndLogFunctions, parseRequirements, submitPayload]

/-- C1 witness: the amended claim instantiated on one concrete requirement
and an empty compile-commands database. -/
theorem claim_C1_witness :
    ((fun _ => (none : Option (List String))) "tmpl/src/geo.cc" = none
      ∧ (runTestFlag none && !(true, "").1) = false)
    ∧ extractFunctionImplementation (fun _ => none)
        (fun _ => Extractor.CTree.node
          ⟨Extractor.CKind.otherKind "tu", "", none, "", []⟩ [])
        (fun t => t) (fun _ => Except.ok none) ⟨"int", "f", []⟩ "tmpl/src/geo.cc"
      = Except.error "failed to extract function implementation"
    ∧ mainPipeline (true, "") none (true, "")
        (some [⟨1, "src/geo.cc", ⟨"int", "f", []⟩⟩])
        (fun _ => true)
        (fun p2 sig2 => extractFunctionImplementation (fun _ => none)
          (fun _ => Extractor.CTree.node
            ⟨Extractor.CKind.otherKind "tu", "", none, "", []⟩ [])
          (fun t => t) (fun _ => Except.ok none) sig2 p2)
        "tmpl"
      = { result := "error", log := "failed to extract function implementation",
          functionImpls := none } := by
  refine ⟨⟨rfl, rfl⟩, ?_, ?_⟩
  · exact (claim_C1 (fun _ => none)
      (fun _ => Extractor.CTree.node ⟨Extractor.CKind.otherKind "tu", "", none, "", []⟩ [])
      (fun t => t) (fun _ => Except.ok none) ⟨"int", "f", []⟩ "tmpl/src/geo.cc"
      rfl "" none (true, "") rfl (fun _ => true) "tmpl"
      ⟨1, "src/geo.cc", ⟨"int", "f", []⟩⟩ []).1
  · exact (claim_C1 (fun _ => none)
      (fun _ => Extractor.CTree.node ⟨Extractor.CKind.otherKind "tu", "", none, "", []⟩ [])
      (fun t => t) (fun _ => Except.ok none) ⟨"int", "f", []⟩ "tmpl/src/geo.cc"
      rfl "" none (true, "") rfl (fun _ => true) "tmpl"
      ⟨1, "src/geo.cc", ⟨"int", "f", []⟩⟩ []).2

/-- C9: at the failing input (one function requirement, everything else
succeeding), the pipeline submits verdict `error` with log
`failed to extract function implementation` - the claimed `failed` verdict
with the not-found message is unreachable, because the parsing loop calls
the four-field `FunctionRequirement` dataclass with three positional
arguments and the resulting `TypeError` pre-empts extraction; moreover even
the not-found branch in `main` uses the Chinese log string, not the claimed
English one. -/
theorem claim_C9_bug :
    mainPipeline (true, "") none (true, "")
        (some [⟨1, "src/a.cpp", ⟨"int", "f", []⟩⟩])
        (fun _ => true)
        (fun _ _ => Except.ok (some "body"))
        "tmpl"
      = { result := "error", log := "failed to extract function implementation",
          functionImpls := none }
    ∧ "failed to extract function implementation"
        ≠ "required function implementation not found"
    ∧ "未找到题目要求的所有函数实现" ≠ "required function implementation not found" := by
  exact ⟨rfl, by decide, by decide⟩

end Validate

end OJ
